import Mathlib

/-!
Verification of the jctl2gray log-forwarding core: a shallow embedding of
the GELF message model (`src/gelf/mod.rs`), severity levels
(`src/gelf/level.rs`), the wire encoder (`src/gelf/wire_message.rs`), the
record-transformation pipeline (`src/processing.rs`) and the hot-reload
configuration store (`src/config.rs`), together with theorems settling the
specification's claims about them.
-/

namespace Jctl2gray

/-! ## JSON values (shallow embedding of `serde_json::Value`)

Numbers are modelled as rationals: the claims under verification only ever
construct and compare exact numeric values (small integers, microsecond
timestamps divided by 10^6), which rationals represent exactly. -/

inductive Json where
  | null
  | bool (b : Bool)
  | num (q : ℚ)
  | str (s : String)
  | arr (elems : List Json)
  | obj (fields : List (String × Json))

/-- JSON string escaping as performed by `serde_json`'s compact writer:
quote and backslash get a backslash escape, the five named control
characters get their short escapes, remaining control characters get a
`\u00XX` escape, and everything else passes through. -/
def escapeChar (c : Char) : List Char :=
  if c = '"' then ['\\', '"']
  else if c = '\\' then ['\\', '\\']
  else if c = (Char.ofNat 8) then ['\\', 'b']
  else if c = (Char.ofNat 9) then ['\\', 't']
  else if c = (Char.ofNat 10) then ['\\', 'n']
  else if c = (Char.ofNat 12) then ['\\', 'f']
  else if c = (Char.ofNat 13) then ['\\', 'r']
  else if c.toNat < 32 then
    let hex := fun (n : Nat) => if n < 10 then Char.ofNat (48 + n) else Char.ofNat (87 + n)
    ['\\', 'u', '0', '0', hex (c.toNat / 16), hex (c.toNat % 16)]
  else [c]

/-- Render a string as a JSON string literal (quotes plus escaping). -/
def renderStr (s : String) : String :=
  String.mk ('"' :: (s.toList.map escapeChar).flatten ++ ['"'])

/-- Render a JSON number. Integral values print as integers, exactly as
`serde_json` prints the integer-valued numbers exercised by the claims;
the shortest-decimal rendering of non-integral doubles is the external
library's concern and is rendered here as a plain rational. -/
def renderNum (q : ℚ) : String :=
  if q.den = 1 then toString q.num else toString q

mutual

/-- Compact JSON rendering, the shallow embedding of
`serde_json::Value::to_string` (used by `transform_record` to stringify the
`MESSAGE` and `_HOSTNAME` field values, quotes included). -/
def Json.render : Json → String
  | .null => "null"
  | .bool b => if b then "true" else "false"
  | .num q => renderNum q
  | .str s => renderStr s
  | .arr xs => "[" ++ Json.renderArr xs ++ "]"
  | .obj fs => "\x7b" ++ Json.renderObj fs ++ "\x7d"

/-- Comma-joined rendering of a JSON array's elements. -/
def Json.renderArr : List Json → String
  | [] => ""
  | [x] => Json.render x
  | x :: xs => Json.render x ++ "," ++ Json.renderArr xs

/-- Comma-joined rendering of a JSON object's fields. -/
def Json.renderObj : List (String × Json) → String
  | [] => ""
  | [(k, v)] => renderStr k ++ ":" ++ Json.render v
  | (k, v) :: fs => renderStr k ++ ":" ++ Json.render v ++ "," ++ Json.renderObj fs

end

/-- Shallow embedding of `serde_json::Value::as_str`: the wrapped string
for a JSON string, `none` for every other variant. -/
def Json.asStr : Json → Option String
  | .str s => some s
  | _ => none

/-- Shallow embedding of `serde_json::Value::as_f64`: the numeric value of
a JSON number, `none` for every other variant. -/
def Json.asF64 : Json → Option ℚ
  | .num q => some q
  | _ => none

/-! ## Severity levels (`src/gelf/level.rs`) -/

/-- GELF system severity (`LevelSystem`), syslog-compatible. Declaration
order matters: Rust's derived `Ord` compares by it. -/
inductive LevelSystem where
  | emergency
  | alert
  | critical
  | error
  | warning
  | notice
  | informational
  | debug
deriving DecidableEq, Repr

/-- Discriminant of a `LevelSystem` value: the number Rust assigns by
declaration order, used by the derived `Ord`/`PartialOrd` comparisons and
by the `level as u8` cast in the wire encoder. -/
def LevelSystem.idx : LevelSystem → Nat
  | .emergency => 0
  | .alert => 1
  | .critical => 2
  | .error => 3
  | .warning => 4
  | .notice => 5
  | .informational => 6
  | .debug => 7

/-- `LevelSystem::from_num`: syslog code to level, every code above 6
falling through the wildcard arm to `Debug`. -/
def LevelSystem.fromNum : Nat → LevelSystem
  | 0 => .emergency
  | 1 => .alert
  | 2 => .critical
  | 3 => .error
  | 4 => .warning
  | 5 => .notice
  | 6 => .informational
  | _ => .debug

/-- `LevelSystem::to_num`: level to syslog code. -/
def LevelSystem.toNum : LevelSystem → Nat
  | .emergency => 0
  | .alert => 1
  | .critical => 2
  | .error => 3
  | .warning => 4
  | .notice => 5
  | .informational => 6
  | .debug => 7

/-- Message-content severity (`LevelMsg`). Declaration order gives the
derived `Ord` used by the message-level filter. -/
inductive LevelMsg where
  | fatal
  | panic
  | error
  | warning
  | info
  | debug
deriving DecidableEq, Repr

/-- Discriminant of a `LevelMsg` value (derived `Ord` comparison key). -/
def LevelMsg.idx : LevelMsg → Nat
  | .fatal => 0
  | .panic => 1
  | .error => 2
  | .warning => 3
  | .info => 4
  | .debug => 5

/-- `impl From<&str> for LevelMsg`: the five known lowercase names map to
their level, anything else to `Debug`. -/
def LevelMsg.ofStr (level : String) : LevelMsg :=
  if level = "fatal" then .fatal
  else if level = "panic" then .panic
  else if level = "error" then .error
  else if level = "warning" then .warning
  else if level = "info" then .info
  else .debug

/-! ## Errors (`src/errors.rs`) -/

/-- The crate's error enumeration (`errors::Error`). -/
inductive Error where
  | ioError (reason : String)
  | serdeParsing (reason : String)
  | tomlParsing (reason : String)
  | insufficientLogLevel
  | noMessage
  | internalError (reason : String)
deriving DecidableEq, Repr

/-! ## GELF message model (`src/gelf/mod.rs`) -/

/-- A GELF `Message`. The metadata `HashMap<String, Value>` is modelled as
an association list with unique keys; map iteration order is unspecified
in the source, and no claim depends on it. -/
structure Message where
  host : String
  short_message : String
  full_message : Option String
  timestamp : Option ℚ
  level : LevelSystem
  metadata : List (String × Json)

/-- `Message::new`: defaults — no full message, no timestamp (filled at
serialization time), level `Alert` per the GELF convention, empty
metadata. -/
def Message.new (host : String) (shortMessage : String) : Message :=
  { host := host
  , short_message := shortMessage
  , full_message := none
  , timestamp := none
  , level := .alert
  , metadata := [] }

/-- `Message::set_level`. -/
def Message.setLevel (m : Message) (level : LevelSystem) : Message :=
  { m with level := level }

/-- `Message::set_timestamp`. -/
def Message.setTimestamp (m : Message) (ts : ℚ) : Message :=
  { m with timestamp := some ts }

/-- `Message::set_full_message`. -/
def Message.setFullMessage (m : Message) (msg : String) : Message :=
  { m with full_message := some msg }

/-- `HashMap::insert` on the association-list model: replace the binding
of an existing key, otherwise append the new binding. -/
def insertKV (l : List (String × Json)) (key : String) (value : Json) :
    List (String × Json) :=
  match l with
  | [] => [(key, value)]
  | (k, v) :: rest =>
      if k = key then (k, value) :: rest else (k, v) :: insertKV rest key value

/-- `Message::set_metadata`: the key `"id"` is rejected (`None`, map
untouched); any other key is inserted and the updated message returned. -/
def Message.setMetadata (m : Message) (key : String) (value : Json) :
    Option Message :=
  if key = "id" then none
  else some { m with metadata := insertKV m.metadata key value }

/-! ## Wire encoder (`src/gelf/wire_message.rs`) -/

/-- The character set trimmed from `host` and `short_message` by the
serializer (`trimmed_symbols`): wrapping quotes and spaces. -/
def isTrimSym (c : Char) : Bool := c == '"' || c == ' '

/-- `str::trim_matches(&['"', ' '])`: strip every leading and trailing
quote or space character. -/
def trimSyms (s : String) : String :=
  String.mk (((s.toList.dropWhile isTrimSym).reverse.dropWhile isTrimSym).reverse)

/-- `WireMessage`: a message plus the optional contextual `(key, value)`
string fields (team/service) supplied by configuration, exactly the pairs
the serializer's `optional` iterator yields. -/
structure WireMessage where
  message : Message
  optional : List (String × String)

/-- The serde `Serialize` impl for `WireMessage`, as the ordered field
list of the produced JSON object. The encode-time clock
(`current_time_unix()`) is passed explicitly as `now`; `level` is the
`level as u8` discriminant cast from the source. -/
def WireMessage.serialize (w : WireMessage) (now : ℚ) : List (String × Json) :=
  [("version", Json.str "1.1"),
   ("host", Json.str (trimSyms w.message.host)),
   ("short_message", Json.str (trimSyms w.message.short_message)),
   ("level", Json.num w.message.level.idx)]
  ++ (match w.message.full_message with
      | some fm => [("full_message", Json.str fm)]
      | none => [])
  ++ [("timestamp", Json.num (match w.message.timestamp with
      | some ts => ts
      | none => now))]
  ++ w.optional.map (fun kv => (kv.1, Json.str kv.2))
  ++ w.message.metadata.map (fun kv => ("_" ++ kv.1, kv.2))

/-! ## Chunking protocol (`src/gelf/chunked_message.rs`)

The source file is declared in `src/gelf/mod.rs` but missing from the
available sources; the spec records the same gap. The definitions below
are therefore modelled from the spec (section 4.3). -/

/-- Modelled from the spec: the two standard chunk size classes of the
GELF UDP protocol (`ChunkSize`); the pipeline always uses the larger
(WAN) class. -/
inductive ChunkSize where
  | lan
  | wan
deriving DecidableEq, Repr

/-- Modelled from the spec: `ChunkSize::size`, the maximum datagram body
size of each class per the published GELF UDP chunking format. -/
def ChunkSize.size : ChunkSize → Nat
  | .lan => 1420
  | .wan => 8192

/-- Modelled from the spec: split a payload into consecutive slices each
bounded by the body size (one slice when the payload already fits). The
`size = 0` guard is unreachable through `ChunkSize.size`. -/
def chunkSplit (size : Nat) (payload : List Nat) : List (List Nat) :=
  if payload.length ≤ size ∨ size = 0 then [payload]
  else payload.take size :: chunkSplit size (payload.drop size)
termination_by payload.length
decreasing_by
  simp only [List.length_drop]
  omega

/-- Modelled from the spec: a `ChunkedMessage` — the shared 8-byte message
identifier, the ordered chunk bodies, and (through `chunks.length`) the
total chunk count. -/
structure ChunkedMessage where
  id : List Nat
  chunks : List (List Nat)
deriving Repr

/-- Modelled from the spec: `ChunkedMessage::new` succeeds exactly when
the required chunk count stays within the protocol's hard ceiling of 128,
and fails (returns no value) otherwise, never truncating data. The
process-wide random 8-byte identifier is taken as the parameter `id`
(randomness is ambient). -/
def ChunkedMessage.new (chunkSize : ChunkSize) (message : List Nat)
    (id : List Nat) : Option ChunkedMessage :=
  let chunks := chunkSplit chunkSize.size message
  if chunks.length ≤ 128 then some { id := id, chunks := chunks } else none

/-- Modelled from the spec: the datagrams yielded by iterating a
`ChunkedMessage` — each chunk body prefixed with the 2-byte magic chunk
marker, the message id, the 1-byte sequence number and the 1-byte total
chunk count. -/
def ChunkedMessage.datagrams (cm : ChunkedMessage) : List (List Nat) :=
  (cm.chunks.enum).map fun idxBody =>
    [0x1e, 0x0f] ++ cm.id ++ [idxBody.1, cm.chunks.length] ++ idxBody.2

/-- `WireMessage::to_chunked_message`, from the point after compression
(`to_compressed_gelf` result passed in as `compressed`): a chunking
failure becomes `Error::InternalError`. -/
def toChunkedMessage (compressed : Except Error (List Nat))
    (chunkSize : ChunkSize) (id : List Nat) : Except Error ChunkedMessage :=
  match compressed with
  | .error e => .error e
  | .ok msg =>
      match ChunkedMessage.new chunkSize msg id with
      | some cm => .ok cm
      | none => .error (.internalError
          ("failed to split message on " ++ toString chunkSize.size ++ "-bytes chunks"))

/-! ## Compression (`src/gelf/compression.rs`)

The gzip/zlib stream compressors are external libraries; they are taken
as parameters `gz`/`zl`, while `None` passes the serialized bytes through
unchanged. -/

/-- `MessageCompression`: the three supported algorithms. -/
inductive MessageCompression where
  | none
  | gzip
  | zlib
deriving DecidableEq, Repr

/-- `MessageCompression::compress`, applied to the already-serialized
payload bytes, with the external gzip/zlib byte transforms passed in. -/
def compressWith (gz zl : List Nat → List Nat) :
    MessageCompression → List Nat → List Nat
  | .none, payload => payload
  | .gzip, payload => gz payload
  | .zlib, payload => zl payload

/-! ## Configuration (`src/config.rs`) -/

/-- `LogSource`: where the ingestion loop reads from. -/
inductive LogSource where
  | stdin
  | journalctl
deriving DecidableEq, Repr

/-- `ConfigGlobal`: the immutable-for-process-lifetime part. -/
structure ConfigGlobal where
  log_source : LogSource
  sender_port : Nat
deriving DecidableEq, Repr

/-- `ConfigWatched`: the hot-reloadable part. -/
structure ConfigWatched where
  graylog_addr : String
  compression : MessageCompression
  team : Option String
  service : Option String
  log_level_system : LevelSystem
  log_level_message : Option LevelMsg
deriving DecidableEq, Repr

/-- `Config`: global plus watched parts. -/
structure Config where
  global : ConfigGlobal
  watched : ConfigWatched
deriving DecidableEq, Repr

/-- `update_current`: merge a freshly loaded watched configuration into
the processing loop's working copy field by field, copying only differing
fields; a differing `graylog_addr` is copied only when longer than two
bytes, otherwise the old address is kept (with a warning). -/
def updateCurrent (current new : ConfigWatched) : ConfigWatched :=
  { graylog_addr :=
      if new.graylog_addr ≠ current.graylog_addr then
        if new.graylog_addr.utf8ByteSize > 2 then new.graylog_addr
        else current.graylog_addr
      else current.graylog_addr
  , log_level_system :=
      if new.log_level_system ≠ current.log_level_system then new.log_level_system
      else current.log_level_system
  , log_level_message :=
      if new.log_level_message ≠ current.log_level_message then new.log_level_message
      else current.log_level_message
  , compression :=
      if new.compression ≠ current.compression then new.compression
      else current.compression
  , team := if new.team ≠ current.team then new.team else current.team
  , service := if new.service ≠ current.service then new.service else current.service }

/-! ## Record transformer (`src/processing.rs`) -/

/-- The fixed ignore-list (`IGNORED_FIELDS`). -/
def IGNORED_FIELDS : List String :=
  ["MESSAGE", "_HOSTNAME", "__REALTIME_TIMESTAMP", "PRIORITY", "__CURSOR",
   "_BOOT_ID", "_MACHINE_ID", "_SYSTEMD_CGROUP", "_SYSTEMD_SLICE"]

/-- `is_metadata`: a raw-record field becomes metadata exactly when it is
not on the ignore-list. -/
def isMetadata (field : String) : Bool :=
  !(IGNORED_FIELDS.contains field)

/-- Rust's `str::parse::<u8>` (`u8::from_str` via `from_str_radix`): an
optional leading `'+'`, then one or more decimal digits accumulated with
overflow checks against the `u8` range. A leading `'-'` is not a sign for
an unsigned type (the sign arm is guarded by `is_signed_ty`), so it falls
through to the digit loop and fails there. -/
def parseU8 (s : String) : Option Nat :=
  let step := fun (acc : Option Nat) (c : Char) =>
    acc.bind fun n =>
      if '0' ≤ c ∧ c ≤ '9' then
        let d := c.toNat - '0'.toNat
        if n * 10 + d ≤ 255 then some (n * 10 + d) else none
      else none
  match s.toList with
  | [] => none
  | c :: rest =>
      let digits := if c = '+' then rest else c :: rest
      if digits = [] then none
      else digits.foldl step (some 0)

/-- ASCII letter test, the `[a-zA-Z]` character class of the level
pattern. -/
def isAsciiAlpha (c : Char) : Bool :=
  ('a' ≤ c && c ≤ 'z') || ('A' ≤ c && c ≤ 'Z')

/-- One anchored attempt of the regex `level=([a-zA-Z]+ )` at the head of
`l`: the literal `level=`, then a maximal nonempty run of ASCII letters
that must be followed by a space. (Backtracking cannot shorten the run:
the character after a shorter run would be a letter, never the required
space.) The returned capture is the letter run — the capture group's
content with its mandatory trailing space already trimmed, as
`get_msg_log_level` trims it. -/
def matchLevelAt (l : List Char) : Option (List Char) :=
  if l.take 6 = "level=".toList then
    let rest := l.drop 6
    let letters := rest.takeWhile isAsciiAlpha
    if letters ≠ [] ∧ (rest.drop letters.length).head? = some ' ' then
      some letters
    else none
  else none

/-- Leftmost match of the level pattern (`Regex::captures` finds the
leftmost occurrence). -/
def findLevel : List Char → Option (List Char)
  | [] => none
  | c :: rest =>
      match matchLevelAt (c :: rest) with
      | some capture => some capture
      | none => findLevel rest

/-- `get_msg_log_level`: first match of `level=([a-zA-Z]+ )` in the
message text, trimmed and mapped through `LevelMsg::from`. -/
def getMsgLogLevel (msg : String) : Option LevelMsg :=
  (findLevel msg.toList).map fun capture => LevelMsg.ofStr (String.mk capture)

/-- ASCII lower-casing of one character. -/
def asciiLower (c : Char) : Char :=
  if 'A' ≤ c ∧ c ≤ 'Z' then Char.ofNat (c.toNat + 32) else c

/-- Follows the spec's words (claim C5): the `level=<word>` scan performed
case-insensitively — the scanner applied to the ASCII-lowercased text.
Stated only to compare against the source's `getMsgLogLevel`. -/
def getMsgLogLevelCI (msg : String) : Option LevelMsg :=
  getMsgLogLevel (String.mk (msg.toList.map asciiLower))

/-- A decoded raw record (`LogRecord = HashMap<String, Value>`), modelled
as an association list with unique keys; `serde_json::from_str` is the
external parser producing it. -/
def LogRecord := List (String × Json)

/-- The `team`/`service` configuration values as the wire encoder's
optional field pairs (each included only when set). -/
def optFields (team service : Option String) : List (String × String) :=
  (match team with | some t => [("team", t)] | none => [])
  ++ (match service with | some s => [("service", s)] | none => [])

/-- The message-level filter step of `transform_record`: when a threshold
is configured and the `level=` scan of the short message derives a level
strictly greater (less severe) than it, the record is rejected with
`InsufficientLogLevel`; otherwise processing proceeds. The comparison is
the derived `Ord`'s `msg_level > threshold`, i.e. on discriminants. -/
def applyMsgFilter (config : ConfigWatched) (shortMsg : String) :
    Except Error Unit :=
  match config.log_level_message with
  | some threshold =>
      match getMsgLogLevel shortMsg with
      | some msgLevel =>
          if threshold.idx < msgLevel.idx then .error .insufficientLogLevel
          else .ok ()
      | none => .ok ()
  | none => .ok ()

/-- The system-level filter step of `transform_record`: `PRIORITY` taken
`as_str`, parsed as `u8` and mapped through `LevelSystem::from`; any
failure along the chain skips the filter. A derived level strictly
greater (less severe) than the configured system threshold rejects the
record; otherwise it becomes the message's level. -/
def applySystemFilter (decoded : LogRecord) (config : ConfigWatched)
    (msg : Message) : Except Error Message :=
  match ((List.lookup "PRIORITY" decoded).bind Json.asStr).bind parseU8 with
  | some numLevel =>
      let logLevel := LevelSystem.fromNum numLevel
      if config.log_level_system.idx < logLevel.idx then
        .error .insufficientLogLevel
      else .ok (msg.setLevel logLevel)
  | none => .ok msg

/-- The timestamp step of `transform_record`: `__REALTIME_TIMESTAMP`
taken `as_f64` and converted from integer microseconds to fractional
seconds; any failure leaves the timestamp unset. -/
def applyTimestamp (decoded : LogRecord) (msg : Message) : Message :=
  match List.lookup "__REALTIME_TIMESTAMP" decoded with
  | some ts => (ts.asF64.map fun t => msg.setTimestamp (t / 1000000)).getD msg
  | none => msg

/-- The metadata step of `transform_record`: every non-ignored field of
the decoded record added through `set_metadata`, whose rejection signal
is discarded (the source ignores the returned `Option`). -/
def addMetadataFields (decoded : LogRecord) (msg : Message) : Message :=
  decoded.foldl
    (fun m kv =>
      if isMetadata kv.1 then (m.setMetadata kv.1 kv.2).getD m else m)
    msg

/-- `transform_record` from the decoded record up to wire serialization:
extract `MESSAGE` (else `NoMessage`) and `_HOSTNAME` (else `"undefined"`)
via `Value::to_string`, apply the message-level filter when configured,
build the `Message`, apply the system-level filter from `PRIORITY`, set
the timestamp from `__REALTIME_TIMESTAMP`, add every non-ignored field as
metadata, and serialize. The encode-time clock of serialization is `now`;
the final compression step is `transformRecordBytes` below. -/
def transformRecord (decoded : LogRecord) (config : ConfigWatched) (now : ℚ) :
    Except Error (List (String × Json)) :=
  match List.lookup "MESSAGE" decoded with
  | none => .error .noMessage
  | some mv =>
      let shortMsg := mv.render
      let host := ((List.lookup "_HOSTNAME" decoded).map Json.render).getD "undefined"
      match applyMsgFilter config shortMsg with
      | .error e => .error e
      | .ok _ =>
          match applySystemFilter decoded config (Message.new host shortMsg) with
          | .error e => .error e
          | .ok msg =>
              .ok ((WireMessage.mk
                      (addMetadataFields decoded (applyTimestamp decoded msg))
                      (optFields config.team config.service)).serialize now)

/-- `transform_record`'s full result: the serialized document rendered to
bytes (`render`, the external UTF-8/JSON text step) and compressed with
the configured algorithm. -/
def transformRecordBytes (render : List (String × Json) → List Nat)
    (gz zl : List Nat → List Nat) (decoded : LogRecord)
    (config : ConfigWatched) (now : ℚ) : Except Error (List Nat) :=
  (transformRecord decoded config now).map fun doc =>
    compressWith gz zl config.compression (render doc)

/-- `process_log_record`, from the transform result on: a successful
transform is chunked (WAN class) and each datagram sent to the configured
address; a chunking failure sends nothing; every error is only logged
(`InsufficientLogLevel` silently, `NoMessage` at debug, the rest as a
warning) and nothing is sent. The function always returns — it never
terminates the ingestion loop. -/
def processLogRecord (transformed : Except Error (List Nat)) (id : List Nat)
    (addr : String) : List (List Nat × String) :=
  match transformed with
  | .ok compressedGelf =>
      match ChunkedMessage.new .wan compressedGelf id with
      | some chunked => chunked.datagrams.map fun d => (d, addr)
      | none => []
  | .error .insufficientLogLevel => []
  | .error .noMessage => []
  | .error _ => []

/-- The per-record step iterated over a whole line sequence: the sends of
each record, concatenated in order (processing always continues to the
next line). -/
def processRecords (transformed : List (Except Error (List Nat)))
    (id : List Nat) (addr : String) : List (List Nat × String) :=
  (transformed.map fun t => processLogRecord t id addr).flatten

/-! ## Config watcher (`config::watch_config`)

The debounced filesystem events and the outcome of `read_config` at each
write event are the watcher loop's inputs; the shared state is the
mutex-guarded configuration value plus the atomic change flag. -/

/-- One received watcher event: a debounced write (carrying the result
`read_config` would produce at that moment), a remove/move of the file,
any other filesystem event, or a channel receive error. -/
inductive WatchEvent where
  | write (parsed : Except Error Config)
  | remove
  | other
  | recvError (msg : String)

/-- The watcher's shared state: the `SharedConfig` value and the
`SharedFlag` change signal. -/
structure WatchState where
  shared : Config
  changeFlag : Bool
deriving DecidableEq, Repr

/-- One iteration of the `watch_config` loop body: a successfully
re-parsed write replaces the shared value and raises the flag; a failed
re-parse propagates the error out of the loop (the `?` on `read_config`);
a remove is only warned about; other events are ignored; a receive error
becomes an `InternalError`. `none` means the loop keeps running. -/
def watchStep (st : WatchState) : WatchEvent → WatchState × Option Error
  | .write (.ok newConfig) => ({ shared := newConfig, changeFlag := true }, none)
  | .write (.error e) => (st, some e)
  | .remove => (st, none)
  | .other => (st, none)
  | .recvError msg => (st, some (.internalError ("config watching: " ++ msg)))

/-- The `watch_config` loop over a finite event prefix: consume events
until one terminates the loop, returning the final shared state and how
(whether) the loop ended. -/
def watchRun (st : WatchState) : List WatchEvent → WatchState × Option Error
  | [] => (st, none)
  | e :: rest =>
      match watchStep st e with
      | (st2, none) => watchRun st2 rest
      | (st2, some err) => (st2, some err)

/-! ## Theorems -/

/-- C8: `SystemLevel` is isomorphic to the syslog codes 0–7 with clamping:
`to_num ∘ from_num` is the identity on 0–7, every code above 7 maps to
`Debug`, and the derived enum order (discriminant order, `idx`) agrees
with the numeric order of `to_num` — lower code, more severe. -/
theorem levelSystem_numeric_iso :
    (∀ n : Nat, n ≤ 7 → (LevelSystem.fromNum n).toNum = n) ∧
    (∀ n : Nat, 7 < n → LevelSystem.fromNum n = .debug) ∧
    (∀ a b : LevelSystem, a.idx < b.idx ↔ a.toNum < b.toNum) := by
  refine ⟨?_, ?_, ?_⟩
  · intro n hn
    interval_cases n <;> rfl
  · intro n hn
    obtain ⟨k, rfl⟩ : ∃ k, n = k + 8 := ⟨n - 8, by omega⟩
    rfl
  · intro a b
    cases a <;> cases b <;> decide

/-- Witness for C8 at concrete inputs. -/
theorem levelSystem_numeric_iso_witness :
    (LevelSystem.fromNum 3).toNum = 3 ∧
    LevelSystem.fromNum 9 = .debug ∧
    (LevelSystem.emergency.idx < LevelSystem.debug.idx ↔
      LevelSystem.emergency.toNum < LevelSystem.debug.toNum) :=
  ⟨levelSystem_numeric_iso.1 3 (by decide),
   levelSystem_numeric_iso.2.1 9 (by decide),
   levelSystem_numeric_iso.2.2 .emergency .debug⟩

/-- C9: after `update_current`, every field of the working copy equals the
new configuration's, except `graylog_addr`, which keeps the old value
exactly when the new address differs and is at most 2 bytes long. -/
theorem updateCurrent_fields (current new : ConfigWatched) :
    (updateCurrent current new).compression = new.compression ∧
    (updateCurrent current new).team = new.team ∧
    (updateCurrent current new).service = new.service ∧
    (updateCurrent current new).log_level_system = new.log_level_system ∧
    (updateCurrent current new).log_level_message = new.log_level_message ∧
    (updateCurrent current new).graylog_addr =
      (if new.graylog_addr ≠ current.graylog_addr ∧
          new.graylog_addr.utf8ByteSize ≤ 2
       then current.graylog_addr else new.graylog_addr) := by
  unfold updateCurrent
  refine ⟨?_, ?_, ?_, ?_, ?_, ?_⟩ <;> (dsimp only []; split_ifs <;> simp_all <;> omega)

/-- C6 counterexample: a write event whose re-parse fails terminates the
watcher loop (the result carries the propagated error and the following
good write event is never consumed), so the watcher does not keep
running; the shared value is left unchanged. -/
theorem watchRun_reparse_failure_terminates :
    watchRun
      ⟨⟨⟨.stdin, 5000⟩, ⟨"localhost:9000", .gzip, none, none, .informational, none⟩⟩, false⟩
      [.write (.error (.tomlParsing "bad config")),
       .write (.ok ⟨⟨.stdin, 5000⟩,
         ⟨"other:9000", .gzip, none, none, .informational, none⟩⟩)]
    = (⟨⟨⟨.stdin, 5000⟩, ⟨"localhost:9000", .gzip, none, none, .informational, none⟩⟩, false⟩,
       some (.tomlParsing "bad config")) := rfl

/-- C6 amended: on a write event whose re-parse fails, the watcher leaves
the shared configuration value and change flag unchanged, but the loop
terminates with the propagated error instead of keeping running — any
later events go unprocessed. -/
theorem watchRun_reparse_failure (st : WatchState) (err : Error)
    (rest : List WatchEvent) :
    watchRun st (.write (.error err) :: rest) = (st, some err) := rfl

/-- Concatenating the chunks of `chunkSplit` reproduces the payload. -/
theorem chunkSplit_flatten (size : Nat) (l : List Nat) :
    (chunkSplit size l).flatten = l := by
  have H : ∀ n (l : List Nat), l.length ≤ n → (chunkSplit size l).flatten = l := by
    intro n
    induction n with
    | zero =>
        intro l hl
        have h0 : l.length ≤ size ∨ size = 0 := Or.inl (by omega)
        rw [chunkSplit, if_pos h0]
        simp
    | succ n ih =>
        intro l hl
        by_cases hc : l.length ≤ size ∨ size = 0
        · rw [chunkSplit, if_pos hc]
          simp
        · rw [chunkSplit, if_neg hc]
          push_neg at hc
          rw [List.flatten_cons, ih (l.drop size) (by simp; omega)]
          exact List.take_append_drop size l
  exact H l.length l le_rfl

/-- The number of chunks `chunkSplit` produces is the ceiling of the
payload length over the chunk body size, floored at one chunk. -/
theorem chunkSplit_length (size : Nat) (hs : 0 < size) (l : List Nat) :
    (chunkSplit size l).length = max 1 ((l.length + size - 1) / size) := by
  have H : ∀ n (l : List Nat), l.length ≤ n →
      (chunkSplit size l).length = max 1 ((l.length + size - 1) / size) := by
    intro n
    induction n with
    | zero =>
        intro l hl
        have h0 : l.length ≤ size ∨ size = 0 := Or.inl (by omega)
        rw [chunkSplit, if_pos h0]
        have hl0 : l.length = 0 := by omega
        rw [hl0]
        rw [Nat.zero_add]
        rw [Nat.div_eq_of_lt (by omega)]
        rfl
    | succ n ih =>
        intro l hl
        by_cases hc : l.length ≤ size ∨ size = 0
        · rw [chunkSplit, if_pos hc]
          rcases hc with hc | hc
          · by_cases h0 : l.length = 0
            · rw [h0]
              rw [Nat.zero_add, Nat.div_eq_of_lt (by omega)]
              rfl
            · have h1 : (l.length + size - 1) / size = 1 := by
                apply Nat.div_eq_of_lt_le <;> omega
              rw [h1]
              rfl
          · omega
        · rw [chunkSplit, if_neg hc]
          push_neg at hc
          have hdrop : (List.drop size l).length = l.length - size := by simp
          have hrec := ih (l.drop size) (by simp; omega)
          rw [List.length_cons, hrec, hdrop]
          have e1 : l.length - size + size - 1 = l.length - 1 := by omega
          rw [e1]
          have hdiv : 1 ≤ (l.length - 1) / size := by
            rw [Nat.one_le_div_iff hs]
            omega
          rw [max_eq_right hdiv]
          have hsub : (l.length + size - 1) / size =
              (l.length + size - 1 - size) / size + 1 :=
            Nat.div_eq_sub_div hs (by omega)
          have e2 : l.length + size - 1 - size = l.length - 1 := by omega
          rw [hsub, e2]
          have hge2 : (1 : Nat) ≤ (l.length - 1) / size + 1 := by omega
          rw [max_eq_right hge2]
  exact H l.length l le_rfl

/-- C3: chunking round-trip and capacity. When the required chunk count
(the ceiling of payload length over the chosen chunk body size) is at
most 128, `ChunkedMessage::new` succeeds and its chunk bodies concatenate
back to the payload; when it exceeds 128, construction returns no value
and `to_chunked_message` turns that into an `InternalError` rather than
truncating. -/
theorem chunkedMessage_roundtrip_capacity (chunkSize : ChunkSize)
    (payload : List Nat) (id : List Nat) :
    ((payload.length + chunkSize.size - 1) / chunkSize.size ≤ 128 →
      ∃ cm : ChunkedMessage,
        ChunkedMessage.new chunkSize payload id = some cm ∧
        cm.chunks.flatten = payload) ∧
    (128 < (payload.length + chunkSize.size - 1) / chunkSize.size →
      ChunkedMessage.new chunkSize payload id = none ∧
      ∃ reason, toChunkedMessage (.ok payload) chunkSize id =
        .error (.internalError reason)) := by
  have hs : 0 < chunkSize.size := by cases chunkSize <;> decide
  have hlen := chunkSplit_length chunkSize.size hs payload
  constructor
  · intro hle
    refine ⟨⟨id, chunkSplit chunkSize.size payload⟩, ?_, chunkSplit_flatten _ _⟩
    unfold ChunkedMessage.new
    rw [if_pos (by omega)]
  · intro hgt
    have hnone : ChunkedMessage.new chunkSize payload id = none := by
      unfold ChunkedMessage.new
      rw [if_neg (by omega)]
    refine ⟨hnone,
      ⟨"failed to split message on " ++ toString chunkSize.size ++ "-bytes chunks", ?_⟩⟩
    unfold toChunkedMessage
    dsimp only
    rw [hnone]

/-- Witness for C3: a three-byte payload chunks in one WAN-class chunk and
flattens back; a payload one byte past the 128-chunk LAN-class capacity is
rejected and surfaces as an `InternalError`. -/
theorem chunkedMessage_roundtrip_capacity_witness :
    (∃ cm : ChunkedMessage,
      ChunkedMessage.new .wan [1, 2, 3] [0, 0, 0, 0, 0, 0, 0, 0] = some cm ∧
      cm.chunks.flatten = [1, 2, 3]) ∧
    (ChunkedMessage.new .lan (List.replicate 181761 0) [0, 0, 0, 0, 0, 0, 0, 0] = none ∧
     ∃ reason, toChunkedMessage (.ok (List.replicate 181761 0)) .lan
       [0, 0, 0, 0, 0, 0, 0, 0] = .error (.internalError reason)) :=
  ⟨(chunkedMessage_roundtrip_capacity .wan [1, 2, 3] [0, 0, 0, 0, 0, 0, 0, 0]).1
     (by decide),
   (chunkedMessage_roundtrip_capacity .lan (List.replicate 181761 0)
      [0, 0, 0, 0, 0, 0, 0, 0]).2
     (by rw [List.length_replicate]; norm_num [ChunkSize.size])⟩

/-! ### Wire-encoder lemmas -/

/-- The discriminant cast (`level as u8`) agrees with `to_num`. -/
theorem LevelSystem.idx_eq_toNum (a : LevelSystem) : a.idx = a.toNum := by
  cases a <;> rfl

theorem serialize_lookup_version (w : WireMessage) (now : ℚ) :
    List.lookup "version" (w.serialize now) = some (Json.str "1.1") := by
  simp [WireMessage.serialize, List.lookup]

theorem serialize_lookup_host (w : WireMessage) (now : ℚ) :
    List.lookup "host" (w.serialize now) = some (Json.str (trimSyms w.message.host)) := by
  simp [WireMessage.serialize, List.lookup]

theorem serialize_lookup_short_message (w : WireMessage) (now : ℚ) :
    List.lookup "short_message" (w.serialize now) =
      some (Json.str (trimSyms w.message.short_message)) := by
  simp [WireMessage.serialize, List.lookup]

theorem serialize_lookup_level (w : WireMessage) (now : ℚ) :
    List.lookup "level" (w.serialize now) = some (Json.num w.message.level.idx) := by
  simp [WireMessage.serialize, List.lookup]

theorem serialize_lookup_timestamp (w : WireMessage) (now : ℚ) :
    List.lookup "timestamp" (w.serialize now) =
      some (Json.num (w.message.timestamp.getD now)) := by
  cases hfm : w.message.full_message <;> cases hts : w.message.timestamp <;>
    simp [WireMessage.serialize, List.lookup, hfm, hts]

theorem underscore_data (k : String) : ("_" ++ k).data = '_' :: k.data := by
  rw [String.data_append]
  rfl

theorem underscore_ne_full_message (k : String) : "_" ++ k ≠ "full_message" := by
  intro h
  have hd : ("_" ++ k).data = "full_message".data := by rw [h]
  rw [underscore_data] at hd
  have hh := congrArg List.head? hd
  simp at hh

theorem underscore_eq_id {k : String} (h : "_" ++ k = "_id") : k = "id" := by
  have hd : ("_" ++ k).data = "_id".data := by rw [h]
  rw [underscore_data] at hd
  have h2 : "_id".data = ['_', 'i', 'd'] := rfl
  rw [h2] at hd
  simp at hd
  exact String.ext hd

theorem serialize_mem_metadata (w : WireMessage) (now : ℚ) :
    ∀ kv ∈ w.message.metadata, ("_" ++ kv.1, kv.2) ∈ w.serialize now := by
  intro kv hkv
  unfold WireMessage.serialize
  exact List.mem_append_right _ (List.mem_map_of_mem _ hkv)

theorem serialize_mem_full_message (w : WireMessage) (now : ℚ) (fm : String)
    (hfm : w.message.full_message = some fm) :
    ("full_message", Json.str fm) ∈ w.serialize now := by
  simp [WireMessage.serialize, hfm]

theorem serialize_keys (w : WireMessage) (now : ℚ) :
    (w.serialize now).map Prod.fst =
      (((["version", "host", "short_message", "level"] ++
        (match w.message.full_message with
         | some _ => ["full_message"]
         | none => [])) ++
       ["timestamp"]) ++ w.optional.map Prod.fst) ++
      w.message.metadata.map (fun kv => "_" ++ kv.1) := by
  cases hfm : w.message.full_message <;>
    (simp [WireMessage.serialize, hfm]; rfl)

theorem serialize_no_full_message (w : WireMessage) (now : ℚ)
    (hfm : w.message.full_message = none)
    (hopt : "full_message" ∉ w.optional.map Prod.fst) :
    "full_message" ∉ (w.serialize now).map Prod.fst := by
  intro hmem
  rw [serialize_keys, hfm] at hmem
  rcases List.mem_append.mp hmem with h | h
  · rcases List.mem_append.mp h with h | h
    · rcases List.mem_append.mp h with h | h
      · rcases List.mem_append.mp h with h | h
        · exact absurd h (by decide)
        · simp at h
      · exact absurd h (by decide)
    · exact hopt h
  · obtain ⟨kv, hkv, he⟩ := List.mem_map.mp h
    exact underscore_ne_full_message kv.1 he

theorem serialize_no_underscore_id (w : WireMessage) (now : ℚ)
    (hmeta : "id" ∉ w.message.metadata.map Prod.fst)
    (hopt : "_id" ∉ w.optional.map Prod.fst) :
    "_id" ∉ (w.serialize now).map Prod.fst := by
  intro hmem
  rw [serialize_keys] at hmem
  rcases List.mem_append.mp hmem with h | h
  · rcases List.mem_append.mp h with h | h
    · rcases List.mem_append.mp h with h | h
      · rcases List.mem_append.mp h with h | h
        · exact absurd h (by decide)
        · cases hfm : w.message.full_message <;> rw [hfm] at h <;> simp at h
      · exact absurd h (by decide)
    · exact hopt h
  · obtain ⟨kv, hkv, he⟩ := List.mem_map.mp h
    have hk : kv.1 = "id" := underscore_eq_id he
    exact hmeta (hk ▸ List.mem_map_of_mem Prod.fst hkv)

/-! ### Transformer lemmas -/

theorem setMetadata_step_level (m : Message) (kv : String × Json) :
    ((if isMetadata kv.1 then (m.setMetadata kv.1 kv.2).getD m else m)).level = m.level := by
  unfold Message.setMetadata
  split
  · split <;> rfl
  · rfl

theorem addMetadataFields_level (decoded : LogRecord) (m : Message) :
    (addMetadataFields decoded m).level = m.level := by
  induction decoded generalizing m with
  | nil => rfl
  | cons kv rest ih =>
      unfold addMetadataFields
      rw [List.foldl_cons]
      exact (ih _).trans (setMetadata_step_level m kv)

theorem applyTimestamp_level (decoded : LogRecord) (m : Message) :
    (applyTimestamp decoded m).level = m.level := by
  unfold applyTimestamp
  split
  · rename_i ts _
    cases h : ts.asF64 <;> simp [h, Message.setTimestamp]
  · rfl

theorem applyTimestamp_metadata (decoded : LogRecord) (m : Message) :
    (applyTimestamp decoded m).metadata = m.metadata := by
  unfold applyTimestamp
  split
  · rename_i ts _
    cases h : ts.asF64 <;> simp [h, Message.setTimestamp]
  · rfl

theorem insertKV_keys (l : List (String × Json)) (key : String) (value : Json) :
    ∀ x ∈ (insertKV l key value).map Prod.fst, x = key ∨ x ∈ l.map Prod.fst := by
  induction l with
  | nil =>
      intro x hx
      simp [insertKV] at hx
      exact Or.inl hx
  | cons kv rest ih =>
      intro x hx
      unfold insertKV at hx
      split at hx
      · rename_i heq
        simp at hx
        rcases hx with hx | hx
        · exact Or.inr (by simp [hx])
        · exact Or.inr (by simp [hx])
      · simp at hx
        rcases hx with hx | hx
        · exact Or.inr (by simp [hx])
        · rcases ih x (by simpa using hx) with h | h
          · exact Or.inl h
          · exact Or.inr (by simp [h])

theorem setMetadata_step_no_id (m : Message) (kv : String × Json)
    (h : "id" ∉ m.metadata.map Prod.fst) :
    "id" ∉ ((if isMetadata kv.1 then (m.setMetadata kv.1 kv.2).getD m
             else m)).metadata.map Prod.fst := by
  split
  · unfold Message.setMetadata
    split
    · exact h
    · rename_i hne
      intro hmem
      rcases insertKV_keys m.metadata kv.1 kv.2 "id" hmem with he | he
      · exact hne he.symm
      · exact h he
  · exact h

theorem addMetadataFields_no_id (decoded : LogRecord) (m : Message)
    (h : "id" ∉ m.metadata.map Prod.fst) :
    "id" ∉ (addMetadataFields decoded m).metadata.map Prod.fst := by
  induction decoded generalizing m with
  | nil => exact h
  | cons kv rest ih =>
      unfold addMetadataFields
      rw [List.foldl_cons]
      exact ih _ (setMetadata_step_no_id m kv h)

theorem applySystemFilter_ok_fields (decoded : LogRecord) (config : ConfigWatched)
    (m m2 : Message) (h : applySystemFilter decoded config m = .ok m2) :
    m2.metadata = m.metadata ∧ m2.level = m.level ∨
    ∃ lvl, m2 = m.setLevel lvl := by
  unfold applySystemFilter at h
  split at h
  · dsimp only at h
    split at h
    · cases h
    · cases h
      exact Or.inr ⟨_, rfl⟩
  · cases h
    exact Or.inl ⟨rfl, rfl⟩

theorem transformRecord_ok_doc (decoded : LogRecord) (config : ConfigWatched)
    (now : ℚ) (doc : List (String × Json))
    (h : transformRecord decoded config now = .ok doc) :
    ∃ msg : Message,
      doc = (WireMessage.mk msg (optFields config.team config.service)).serialize now ∧
      "id" ∉ msg.metadata.map Prod.fst := by
  unfold transformRecord at h
  split at h
  · cases h
  · dsimp only at h
    split at h
    · cases h
    · split at h
      · cases h
      · rename_i mv _ msg hS
        cases h
        refine ⟨_, rfl, ?_⟩
        apply addMetadataFields_no_id
        rw [applyTimestamp_metadata]
        have hmeta : msg.metadata = [] := by
          rcases applySystemFilter_ok_fields _ _ _ _ hS with ⟨hm, _⟩ | ⟨lvl, rfl⟩
          · rw [hm]; rfl
          · rfl
        rw [hmeta]
        simp

theorem optFields_no_underscore_id (team service : Option String) :
    "_id" ∉ (optFields team service).map Prod.fst := by
  cases team <;> cases service <;> simp [optFields]

/-! ### Claim theorems over the wire encoder and transformer -/

/-- C1: the wire encoder emits `version` fixed at `"1.1"`, `host` and
`short_message` trimmed of wrapping quotes and spaces, `level` as the
numeric code (0–7) of the message's system level, `full_message` exactly
when set, `timestamp` as the message's timestamp when set and the
encode-time clock otherwise, and every metadata entry under its
underscore-prefixed key with the value unchanged. (The absence direction
for `full_message` assumes the configured optional context fields do not
themselves use that name, which `team`/`service` never do.) -/
theorem wireMessage_serialize_contract (m : Message)
    (optional : List (String × String)) (now : ℚ)
    (hopt : "full_message" ∉ optional.map Prod.fst) :
    List.lookup "version" ((WireMessage.mk m optional).serialize now) =
      some (Json.str "1.1") ∧
    List.lookup "host" ((WireMessage.mk m optional).serialize now) =
      some (Json.str (trimSyms m.host)) ∧
    List.lookup "short_message" ((WireMessage.mk m optional).serialize now) =
      some (Json.str (trimSyms m.short_message)) ∧
    (List.lookup "level" ((WireMessage.mk m optional).serialize now) =
      some (Json.num m.level.toNum) ∧ m.level.toNum ≤ 7) ∧
    (∀ fm, m.full_message = some fm →
      ("full_message", Json.str fm) ∈ (WireMessage.mk m optional).serialize now) ∧
    (m.full_message = none →
      "full_message" ∉ ((WireMessage.mk m optional).serialize now).map Prod.fst) ∧
    List.lookup "timestamp" ((WireMessage.mk m optional).serialize now) =
      some (Json.num (m.timestamp.getD now)) ∧
    ∀ kv ∈ m.metadata, ("_" ++ kv.1, kv.2) ∈ (WireMessage.mk m optional).serialize now := by
  refine ⟨serialize_lookup_version _ _, serialize_lookup_host _ _,
    serialize_lookup_short_message _ _,
    ⟨?_, by cases m.level <;> decide⟩,
    fun fm hfm => serialize_mem_full_message _ _ fm hfm,
    fun hfm => serialize_no_full_message _ _ hfm hopt,
    serialize_lookup_timestamp _ _,
    serialize_mem_metadata (WireMessage.mk m optional) now⟩
  rw [serialize_lookup_level]
  rw [LevelSystem.idx_eq_toNum]

/-- Witness for C1 at a concrete message with `full_message` set. -/
theorem wireMessage_serialize_contract_witness :
    List.lookup "version"
      ((WireMessage.mk ((Message.new "h" "s").setFullMessage "f") []).serialize 5) =
      some (Json.str "1.1") ∧
    ("full_message", Json.str "f") ∈
      (WireMessage.mk ((Message.new "h" "s").setFullMessage "f") []).serialize 5 :=
  ⟨(wireMessage_serialize_contract ((Message.new "h" "s").setFullMessage "f") [] 5
      (by decide)).1,
   (wireMessage_serialize_contract ((Message.new "h" "s").setFullMessage "f") [] 5
      (by decide)).2.2.2.2.1 "f" rfl⟩

/-- C2: `set_metadata` with key `"id"` always signals rejection (`None`)
and leaves the metadata untouched, and consequently no document produced
by `transform_record` ever carries a field named `_id`. -/
theorem setMetadata_id_rejected :
    (∀ (m : Message) (v : Json), m.setMetadata "id" v = none) ∧
    (∀ (m : Message) (v : Json), ((m.setMetadata "id" v).getD m).metadata = m.metadata) ∧
    (∀ (decoded : LogRecord) (config : ConfigWatched) (now : ℚ)
        (doc : List (String × Json)),
      transformRecord decoded config now = .ok doc →
      "_id" ∉ doc.map Prod.fst) := by
  refine ⟨fun m v => rfl, fun m v => rfl, ?_⟩
  intro decoded config now doc h
  obtain ⟨msg, rfl, hid⟩ := transformRecord_ok_doc decoded config now doc h
  exact serialize_no_underscore_id _ _ hid (optFields_no_underscore_id _ _)

/-- Witness for C2 at a concrete message and a concrete transformed
record. -/
theorem setMetadata_id_rejected_witness :
    (Message.new "h" "s").setMetadata "id" (Json.str "x") = none ∧
    "_id" ∉ ([("version", Json.str "1.1"), ("host", Json.str "undefined"),
      ("short_message", Json.str "m"), ("level", Json.num 1),
      ("timestamp", Json.num 0)] : List (String × Json)).map Prod.fst :=
  ⟨setMetadata_id_rejected.1 (Message.new "h" "s") (Json.str "x"),
   setMetadata_id_rejected.2.2 [("MESSAGE", Json.str "m")]
     ⟨"a", .none, Option.none, Option.none, .debug, Option.none⟩ 0 _ rfl⟩

/-- C4: the record with `MESSAGE "level=error disk full"`, `_HOSTNAME
"h1"` and `PRIORITY "3"`, with no message-level threshold, is accepted
under system threshold `Warning` with GELF `level` 3 and `host "h1"`, and
rejected with `InsufficientLogLevel` under system threshold `Critical`. -/
theorem transform_priority_thresholds (now : ℚ) :
    (∃ doc, transformRecord
        [("MESSAGE", Json.str "level=error disk full"), ("_HOSTNAME", Json.str "h1"),
         ("PRIORITY", Json.str "3")]
        ⟨"localhost:12201", .gzip, Option.none, Option.none, .warning, Option.none⟩ now =
        .ok doc ∧
      List.lookup "level" doc = some (Json.num 3) ∧
      List.lookup "host" doc = some (Json.str "h1")) ∧
    transformRecord
      [("MESSAGE", Json.str "level=error disk full"), ("_HOSTNAME", Json.str "h1"),
       ("PRIORITY", Json.str "3")]
      ⟨"localhost:12201", .gzip, Option.none, Option.none, .critical, Option.none⟩ now =
      .error .insufficientLogLevel :=
  ⟨⟨[("version", Json.str "1.1"), ("host", Json.str "h1"),
     ("short_message", Json.str "level=error disk full"), ("level", Json.num 3),
     ("timestamp", Json.num now)], rfl, rfl, rfl⟩, rfl⟩

/-- C10: a `PRIORITY` field that is not a JSON string parsing as a `u8`
(for example the JSON number 3) skips the system-level filter entirely:
the record is not rejected on system level and the encoded document
carries the default level `Alert` (code 1). Stated with the message-level
filter unconfigured so the acceptance is unconditional. -/
theorem priority_not_string_skips_filter (decoded : LogRecord)
    (config : ConfigWatched) (now : ℚ) (v mv : Json)
    (hp : List.lookup "PRIORITY" decoded = some v)
    (hv : v.asStr.bind parseU8 = none)
    (hm : List.lookup "MESSAGE" decoded = some mv)
    (hth : config.log_level_message = none) :
    ∃ doc, transformRecord decoded config now = .ok doc ∧
      List.lookup "level" doc = some (Json.num 1) := by
  have hchain : ((List.lookup "PRIORITY" decoded).bind Json.asStr).bind parseU8 = none := by
    rw [hp]
    exact hv
  have hsys : ∀ msg0 : Message, applySystemFilter decoded config msg0 = .ok msg0 := by
    intro msg0
    unfold applySystemFilter
    rw [hchain]
  have hfil : ∀ s : String, applyMsgFilter config s = .ok () := by
    intro s
    unfold applyMsgFilter
    rw [hth]
  unfold transformRecord
  rw [hm]
  dsimp only
  rw [hfil, hsys]
  refine ⟨_, rfl, ?_⟩
  rw [serialize_lookup_level, addMetadataFields_level, applyTimestamp_level]
  rfl

/-- Witness for C10: `PRIORITY` as the JSON number 3, and as the JSON
string `"-0"` (rejected by `u8::from_str` for the unsigned type), both
leave the default `Alert` level in the encoded document. -/
theorem priority_not_string_skips_filter_witness :
    (∃ doc, transformRecord [("MESSAGE", Json.str "x"), ("PRIORITY", Json.num 3)]
        ⟨"a", .none, Option.none, Option.none, .warning, Option.none⟩ 0 = .ok doc ∧
      List.lookup "level" doc = some (Json.num 1)) ∧
    ∃ doc, transformRecord [("MESSAGE", Json.str "x"), ("PRIORITY", Json.str "-0")]
        ⟨"a", .none, Option.none, Option.none, .warning, Option.none⟩ 0 = .ok doc ∧
      List.lookup "level" doc = some (Json.num 1) :=
  ⟨priority_not_string_skips_filter
     [("MESSAGE", Json.str "x"), ("PRIORITY", Json.num 3)]
     ⟨"a", .none, Option.none, Option.none, .warning, Option.none⟩ 0
     (Json.num 3) (Json.str "x") rfl rfl rfl rfl,
   priority_not_string_skips_filter
     [("MESSAGE", Json.str "x"), ("PRIORITY", Json.str "-0")]
     ⟨"a", .none, Option.none, Option.none, .warning, Option.none⟩ 0
     (Json.str "-0") (Json.str "x") rfl rfl rfl rfl⟩

/-- C7: a record without a `MESSAGE` field makes `transform_record`
return `NoMessage`, `process_log_record` sends no datagram for it, and
processing continues — surrounding records are handled exactly as if the
failing one were absent. -/
theorem noMessage_skipped (decoded : LogRecord) (config : ConfigWatched) (now : ℚ)
    (render : List (String × Json) → List Nat) (gz zl : List Nat → List Nat)
    (id : List Nat) (addr : String)
    (h : List.lookup "MESSAGE" decoded = none) :
    transformRecord decoded config now = .error .noMessage ∧
    transformRecordBytes render gz zl decoded config now = .error .noMessage ∧
    processLogRecord (transformRecordBytes render gz zl decoded config now) id addr = [] ∧
    ∀ before after : List (Except Error (List Nat)),
      processRecords
          (before ++ transformRecordBytes render gz zl decoded config now :: after) id addr =
        processRecords before id addr ++ processRecords after id addr := by
  have h1 : transformRecord decoded config now = .error .noMessage := by
    unfold transformRecord
    rw [h]
  have h2 : transformRecordBytes render gz zl decoded config now = .error .noMessage := by
    unfold transformRecordBytes
    rw [h1]
    rfl
  refine ⟨h1, h2, by rw [h2]; rfl, ?_⟩
  intro before after
  unfold processRecords
  rw [List.map_append, List.map_cons, List.flatten_append, List.flatten_cons]
  rw [h2]
  rfl

/-- Witness for C7 at a concrete record missing `MESSAGE`. -/
theorem noMessage_skipped_witness :
    transformRecord [("PRIORITY", Json.str "3")]
      ⟨"a", .none, Option.none, Option.none, .debug, Option.none⟩ 0 = .error .noMessage ∧
    processLogRecord (transformRecordBytes (fun _ => []) (fun b => b) (fun b => b)
      [("PRIORITY", Json.str "3")]
      ⟨"a", .none, Option.none, Option.none, .debug, Option.none⟩ 0) [] "a" = [] :=
  ⟨(noMessage_skipped [("PRIORITY", Json.str "3")]
      ⟨"a", .none, Option.none, Option.none, .debug, Option.none⟩ 0
      (fun _ => []) (fun b => b) (fun b => b) [] "a" rfl).1,
   (noMessage_skipped [("PRIORITY", Json.str "3")]
      ⟨"a", .none, Option.none, Option.none, .debug, Option.none⟩ 0
      (fun _ => []) (fun b => b) (fun b => b) [] "a" rfl).2.2.1⟩

/-- C5 counterexample: the `level=` scan is case-sensitive, not
case-insensitive as claimed. On the message `Level=info restarting` with
message threshold `Error`, the case-insensitive reading derives `Info`,
which is less severe than the threshold and must be rejected per the
claim — but the source scanner finds no match and the transformer accepts
the record. -/
theorem msgLevel_scan_case_sensitive :
    getMsgLogLevelCI (Json.str "Level=info restarting").render = some .info ∧
    LevelMsg.error.idx < LevelMsg.info.idx ∧
    getMsgLogLevel (Json.str "Level=info restarting").render = none ∧
    ∃ doc, transformRecord [("MESSAGE", Json.str "Level=info restarting")]
        ⟨"a", .none, Option.none, Option.none, .debug, Option.some .error⟩ 0 = .ok doc :=
  ⟨rfl, by decide, rfl,
   ⟨[("version", Json.str "1.1"), ("host", Json.str "undefined"),
     ("short_message", Json.str "Level=info restarting"), ("level", Json.num 1),
     ("timestamp", Json.num 0)], rfl⟩⟩

/-- Helper for C5: strings over a `List Char` view: `toList` is `data`. -/
theorem string_toList_eq (s : String) : s.toList = s.data := rfl

/-- Helper for C5: `takeWhile` over a run that wholly satisfies the
predicate followed by a failing character stops exactly at the run. -/
theorem takeWhile_append_not (p : Char → Bool) (l1 : List Char) (c : Char)
    (l2 : List Char) (h1 : ∀ x ∈ l1, p x = true) (hc : p c = false) :
    (l1 ++ c :: l2).takeWhile p = l1 := by
  induction l1 with
  | nil => simp [List.takeWhile, hc]
  | cons a t ih =>
      have ha : p a = true := h1 a (by simp)
      simp only [List.cons_append, List.takeWhile, ha]
      exact congrArg (List.cons a) (ih (fun x hx => h1 x (by simp [hx])))

/-- Helper for C5: a leading `level=<letters><space>` occurrence is the
scanner's first match, so its word decides the result regardless of any
later occurrences in the text. -/
theorem getMsgLogLevel_leading (w rest : String) (hw : w.data ≠ [])
    (hall : ∀ c ∈ w.data, isAsciiAlpha c = true) :
    getMsgLogLevel ("level=" ++ w ++ " " ++ rest) = some (LevelMsg.ofStr w) := by
  have hdata : ("level=" ++ w ++ " " ++ rest).data =
      'l' :: 'e' :: 'v' :: 'e' :: 'l' :: '=' :: (w.data ++ ' ' :: rest.data) := by
    simp [String.data_append]
  have hmatch : matchLevelAt
      ('l' :: 'e' :: 'v' :: 'e' :: 'l' :: '=' :: (w.data ++ ' ' :: rest.data)) =
      some w.data := by
    unfold matchLevelAt
    rw [if_pos (show List.take 6
      ('l' :: 'e' :: 'v' :: 'e' :: 'l' :: '=' :: (w.data ++ ' ' :: rest.data)) =
      "level=".toList from rfl)]
    dsimp only
    rw [show List.drop 6
      ('l' :: 'e' :: 'v' :: 'e' :: 'l' :: '=' :: (w.data ++ ' ' :: rest.data)) =
      w.data ++ ' ' :: rest.data from rfl]
    rw [takeWhile_append_not isAsciiAlpha w.data ' ' rest.data hall rfl]
    rw [if_pos ⟨hw, by rw [List.drop_left]; rfl⟩]
  have hfind : findLevel
      ('l' :: 'e' :: 'v' :: 'e' :: 'l' :: '=' :: (w.data ++ ' ' :: rest.data)) =
      some w.data := by
    simp only [findLevel, hmatch]
  unfold getMsgLogLevel
  rw [string_toList_eq, hdata, hfind]
  simp only [Option.map]

/-- Helper for C5: a configured message threshold together with a scan
match strictly above it (less severe) rejects the record. -/
theorem msgFilter_rejects (decoded : LogRecord) (config : ConfigWatched) (now : ℚ)
    (threshold : LevelMsg) (mv : Json) (msgLevel : LevelMsg)
    (hT : config.log_level_message = some threshold)
    (hM : List.lookup "MESSAGE" decoded = some mv)
    (hL : getMsgLogLevel mv.render = some msgLevel)
    (hlt : threshold.idx < msgLevel.idx) :
    transformRecord decoded config now = .error .insufficientLogLevel := by
  have hfil : applyMsgFilter config mv.render = .error .insufficientLogLevel := by
    unfold applyMsgFilter
    rw [hT, hL]
    dsimp only
    rw [if_pos hlt]
  unfold transformRecord
  rw [hM]
  dsimp only
  rw [hfil]

/-- Helper for C5: a word naming none of the five known levels maps to
the least-severe `Debug`. -/
theorem ofStr_unknown (s : String)
    (h : s ∉ ["fatal", "panic", "error", "warning", "info"]) :
    LevelMsg.ofStr s = .debug := by
  simp at h
  obtain ⟨h1, h2, h3, h4, h5⟩ := h
  simp [LevelMsg.ofStr, h1, h2, h3, h4, h5]

/-- C5 amended: the transformer scans the rendered short message for the
case-SENSITIVE pattern `level=` (lowercase literal) followed by one or
more ASCII letters and a mandatory space, first match only; the captured
word maps case-sensitively, with unknown words mapping to the
least-severe `Debug`; and whenever the derived level is strictly less
severe than the configured threshold the record is rejected with
`InsufficientLogLevel`. -/
theorem msgLevel_filter_amended :
    (∀ (decoded : LogRecord) (config : ConfigWatched) (now : ℚ)
        (threshold : LevelMsg) (mv : Json) (msgLevel : LevelMsg),
      config.log_level_message = some threshold →
      List.lookup "MESSAGE" decoded = some mv →
      getMsgLogLevel mv.render = some msgLevel →
      threshold.idx < msgLevel.idx →
      transformRecord decoded config now = .error .insufficientLogLevel) ∧
    (∀ w rest : String, w.data ≠ [] → (∀ c ∈ w.data, isAsciiAlpha c = true) →
      getMsgLogLevel ("level=" ++ w ++ " " ++ rest) = some (LevelMsg.ofStr w)) ∧
    (∀ s : String, s ∉ ["fatal", "panic", "error", "warning", "info"] →
      LevelMsg.ofStr s = .debug) :=
  ⟨msgFilter_rejects, getMsgLogLevel_leading, ofStr_unknown⟩

/-- Witness for the amended C5 at concrete messages and words. -/
theorem msgLevel_filter_amended_witness :
    transformRecord [("MESSAGE", Json.str "level=info restarting")]
      ⟨"a", .none, Option.none, Option.none, .debug, Option.some .error⟩ 0 =
      .error .insufficientLogLevel ∧
    getMsgLogLevel ("level=" ++ "warning" ++ " " ++ "now") =
      some (LevelMsg.ofStr "warning") ∧
    LevelMsg.ofStr "verbose" = .debug :=
  ⟨msgLevel_filter_amended.1 [("MESSAGE", Json.str "level=info restarting")]
     ⟨"a", .none, Option.none, Option.none, .debug, Option.some .error⟩ 0
     .error (Json.str "level=info restarting") .info rfl rfl rfl (by decide),
   msgLevel_filter_amended.2.1 "warning" "now" (by decide) (by decide),
   msgLevel_filter_amended.2.2 "verbose" (by decide)⟩

end Jctl2gray
